import Mathlib

/-!
Verification of the digit-capture program (`src/run.py`).

The program is a fullscreen drawing canvas (`DigitCaptureApp`): the user
draws with the pointer onto a grayscale PIL image (the raster canvas), a
30-second timer periodically normalizes the drawing to a 28×28 matrix and
prints it, then clears the canvas.

This file gives a shallow embedding of the raster data model and of the
methods `start_draw`, `draw_line`, `stop_draw`, `process_drawing`,
`reset_canvas` and `update_timer`, and proves/refutes the frozen claims
about them.  A raster image is a row-major list of rows of pixel
intensities (0–255, mode 'L', background black = 0).  Time values are
rationals; Python float arithmetic on the small quantities involved is
exact at the granularity the claims mention, except where a definition's
doc comment says otherwise.
-/

namespace DigitCapture

/-- A grayscale image (PIL mode 'L'): row-major rows of intensities 0–255. -/
abbrev Img := List (List Nat)

/-- Pixel lookup: `getPix img x y` is the intensity at column `x`, row `y`
(0 outside the image, matching the all-black background). -/
def getPix (img : Img) (x y : Nat) : Nat := (img.getD y []).getD x 0

/-- Width of an image (length of its first row; PIL `size[0]`). -/
def imgWidth (img : Img) : Nat := (img.getD 0 []).length

/-- A `W×H` grid whose pixel at `(x, y)` is `f x y`. -/
def mkGrid (W H : Nat) (f : Nat → Nat → Nat) : Img :=
  (List.range H).map fun y => (List.range W).map fun x => f x y

/-- Embeds `Image.new('L', (w, h), 'black')`: a fresh all-background image. -/
def imageNew (w h : Nat) : Img := mkGrid w h fun _ _ => 0

/-- Column positions (paired with the row index `y`) of the non-background
pixels of one row, starting at column `x`. -/
def nzRow : List Nat → Nat → Nat → List (Nat × Nat)
  | [], _, _ => []
  | v :: vs, y, x =>
    if v = 0 then nzRow vs y (x + 1) else (x, y) :: nzRow vs y (x + 1)

/-- Coordinates of all non-background pixels, scanning rows from `y`. -/
def nzAux : Img → Nat → List (Nat × Nat)
  | [], _ => []
  | row :: rest, y => nzRow row y 0 ++ nzAux rest (y + 1)

/-- Coordinates `(x, y)` of every non-background (non-zero) pixel. -/
def nonzeroCoords (img : Img) : List (Nat × Nat) := nzAux img 0

/-- Embeds `Image.getbbox()`: the minimal box `(left, upper, right, lower)`
(right/lower exclusive) enclosing the non-zero pixels, or `none` if the
image is entirely background. -/
def getbbox (img : Img) : Option (Nat × Nat × Nat × Nat) :=
  match nonzeroCoords img with
  | [] => none
  | c :: cs =>
      some ((cs.map Prod.fst).foldl min c.1,
            (cs.map Prod.snd).foldl min c.2,
            (cs.map Prod.fst).foldl max c.1 + 1,
            (cs.map Prod.snd).foldl max c.2 + 1)

/-- Embeds `Image.crop((l, u, r, lo))`: the `(r-l)×(lo-u)` image whose pixel
`(x, y)` is the source pixel `(l+x, u+y)`. -/
def crop (img : Img) (l u r lo : Nat) : Img :=
  mkGrid (r - l) (lo - u) fun x y => getPix img (l + x) (u + y)

/-- Embeds the source's `Image.new('L', (W, H), 'black')` immediately
followed by `.paste(src, (ox, oy))`: a `W×H` black image with `src` pasted
at offset `(ox, oy)`. -/
def pasteIntoNew (W H : Nat) (src : Img) (ox oy : Nat) : Img :=
  mkGrid W H fun x y =>
    if ox ≤ x ∧ x < ox + imgWidth src ∧ oy ≤ y ∧ y < oy + src.length then
      getPix src (x - ox) (y - oy)
    else 0

/-- Embeds lines 107–115 of `process_drawing`: pad the crop to a square of
side `max(width, height)`, the content pasted at offset
`((max_dim - width) // 2, (max_dim - height) // 2)`. -/
def squarePad (cropped : Img) : Img :=
  let width := imgWidth cropped
  let height := cropped.length
  let max_dim := max width height
  pasteIntoNew max_dim max_dim cropped ((max_dim - width) / 2) ((max_dim - height) / 2)

/-- Embeds `padding = int(max_dim * 0.2)` (line 118).  In IEEE-754 doubles
`0.2` is slightly above 1/5, and for every `max_dim` below 2^50 the product
`max_dim * 0.2` truncates to exactly `max_dim // 5`; screen dimensions are
far below that bound, so the embedding uses natural floor division. -/
def padAmount (max_dim : Nat) : Nat := max_dim / 5

/-- Embeds lines 118–121 of `process_drawing`: surround the square image
with a background margin of `padAmount max_dim` on all four sides. -/
def marginPad (square_img : Img) (max_dim : Nat) : Img :=
  let padding := padAmount max_dim
  pasteIntoNew (max_dim + 2 * padding) (max_dim + 2 * padding) square_img padding padding

/-- Clamp a signed value into the 8-bit range 0–255 (PIL's `clip8`, applied
to every resampled pixel of a mode-'L' image). -/
def clip8 (z : Int) : Nat := if z < 0 then 0 else if z > 255 then 255 else z.toNat

/-- Kernel weight of input sample `x` for output sample `i` of a 1-D
resampling pass from `inSize` to `outSize` samples (`M = max inSize outSize`).
The filter argument is `t = ((2x+1)·outSize − (2i+1)·inSize) / (2M)`
(source position minus projected center, in filterscale units, filterscale
`M/outSize`); the weight is the kernel value at `t`, scaled by the
positive constant `2M`, which cancels in the weight normalization.
PIL's `LANCZOS` weights are floating-point evaluations of
`sinc(t)·sinc(t/3)` on the same support `|t| < 3`, which have no exact
executable counterpart; the embedding keeps PIL's resampling scheme
exactly (support window, weight normalization, rounding, clipping) and
models the transcendental weight values by the triangular kernel
`max 0 (3 − |t|)` of the same support.  No theorem below depends on the
particular weight values, only on the window/normalize/clip structure. -/
def weight (outSize inSize M i x : Nat) : Nat :=
  6 * M - ((2 * x + 1) * outSize - (2 * i + 1) * inSize : Int).natAbs

/-- One output sample of PIL's 1-D resampling pass (`ImagingResampleHorizontal`):
for output index `i` (of `outSize`), take the support window around the
projected center (support 3 filterscales, window bounds truncated as by
the C `int` casts, clamped to the input), form the kernel-weighted,
weight-normalized sum of the input samples, round half up and clip to
0–255.  `(2S + T) / (2T)` is `⌊S/T + 1/2⌋` for the integer weight total
`T` and weighted sum `S`. -/
def samplePoint (outSize : Nat) (vals : List Nat) (i : Nat) : Nat :=
  let inSize := vals.length
  let M := max inSize outSize
  let lo : Int := Int.tdiv ((2 * i + 1) * inSize + outSize - 6 * M) (2 * outSize)
  let hi : Int := Int.tdiv ((2 * i + 1) * inSize + outSize + 6 * M) (2 * outSize)
  let xmin : Nat := lo.toNat
  let xmax : Nat := min inSize hi.toNat
  let xs : List Nat := (List.range (xmax - xmin)).map fun k => xmin + k
  let ws : List Nat := xs.map fun x => weight outSize inSize M i x
  let T := ws.sum
  let S := (List.zipWith (fun w x => w * vals.getD x 0) ws xs).sum
  clip8 (Int.tdiv (2 * S + T) (2 * T))

/-- Column `x` of an image. -/
def getCol (img : Img) (x : Nat) : List Nat := img.map fun row => row.getD x 0

/-- Embeds `padded_img.resize((ow, oh), Image.LANCZOS)`: PIL resamples in
two separable passes, horizontal first, each pass producing clipped 8-bit
samples. -/
def resizeTo (ow oh : Nat) (img : Img) : Img :=
  let horiz := img.map fun row => (List.range ow).map (samplePoint ow row)
  (List.range oh).map fun i => (List.range ow).map fun x => samplePoint oh (getCol horiz x) i

/-- The separator printed by the program: `"="*50`. -/
def sepLine : String := String.mk (List.replicate 50 '=')

/-- The capture header line printed by the program. -/
def headerLine : String := "Captured digit as 28x28 matrix (normalized 0-1):"

/-- Round half to even, as Python's float formatting does. -/
def roundHalfEvenQ (q : ℚ) : Int :=
  let f := ⌊q⌋
  let r := q - (f : ℚ)
  if r < 1 / 2 then f
  else if (1 : ℚ) / 2 < r then f + 1
  else if f % 2 = 0 then f else f + 1

/-- Embeds Python's `f'{val:.2f}'` on the (nonnegative, exact) matrix
entries: round to 2 decimals half-to-even and print `int.frac₂`. -/
def fmt2 (q : ℚ) : String :=
  let n := roundHalfEvenQ (q * 100)
  if n < 0 then
    "-" ++ toString (-n / 100) ++ "." ++
      (if (-n) % 100 < 10 then "0" else "") ++ toString ((-n) % 100)
  else
    toString (n / 100) ++ "." ++
      (if n % 100 < 10 then "0" else "") ++ toString (n % 100)

/-- One formatted matrix row: `' '.join(f'{val:.2f}' for val in row)`. -/
def matrixLine (row : List ℚ) : String := String.intercalate " " (row.map fmt2)

/-- The visual-representation glyph of one intensity (line 147):
`'█' if val > 0.5 else '▒' if val > 0.1 else ' '`. -/
def glyphChar (q : ℚ) : Char :=
  if (1 : ℚ) / 2 < q then '█' else if (1 : ℚ) / 10 < q then '▒' else ' '

/-- One visual-representation row: the glyphs of its entries, joined. -/
def visualLine (row : List ℚ) : String := String.mk (row.map glyphChar)

/-- The console lines printed on a successful capture (lines 136–147);
each `print` emits one line, and a leading `"\n"` emits an empty line. -/
def captureLines (m : List (List ℚ)) : List String :=
  ["", sepLine, headerLine, sepLine] ++ m.map matrixLine ++
    ["", "Visual representation:"] ++ m.map visualLine

/-- The normalization pipeline of `process_drawing` for a non-empty
bounding box (lines 105–133): crop, square-pad, margin-pad, resize to
28×28, divide by 255.  The entries are exact rationals `v/255`; the
source stores them as `float32`, which represents each of the 256
possible quotients faithfully for every claim below. -/
def mnist_array_of (img : Img) : Nat × Nat × Nat × Nat → List (List ℚ)
  | (l, u, r, lo) =>
    let cropped := crop img l u r lo
    let max_dim := max (imgWidth cropped) cropped.length
    let square_img := squarePad cropped
    let padded_img := marginPad square_img max_dim
    let mnist_img := resizeTo 28 28 padded_img
    mnist_img.map fun row => row.map fun v => ((v : Nat) : ℚ) / 255

/-- Embeds `DigitCaptureApp.process_drawing` (lines 98–152): returns the
matrix (or `none` when the bounding box is empty) together with the
console lines it prints. -/
def process_drawing (img : Img) : Option (List (List ℚ)) × List String :=
  match getbbox img with
  | some bb => (some (mnist_array_of img bb), captureLines (mnist_array_of img bb))
  | none => (none, ["", "No drawing detected!"])

/-- The mutable state of `DigitCaptureApp` relevant to the claims: the
screen size, the PIL raster (`self.image`), the stroke origin
(`self.old_x`, `self.old_y`) and the timer start (`self.start_time`). -/
structure AppState where
  screen_width : Nat
  screen_height : Nat
  image : Img
  old_x : Option Int
  old_y : Option Int
  start_time : ℚ
deriving DecidableEq

/-- Python truthiness of `self.old_x` / `self.old_y`: `None` is falsy and
so is the integer 0. -/
def truthy : Option Int → Bool
  | none => false
  | some v => v != 0

/-- The source's fixed stroke width (`self.line_width = 15`). -/
def line_width : Nat := 15

/-- Whether pixel `(px, py)` lies on the width-`w` stroke from `(x0, y0)`
to `(x1, y1)`: its distance to the segment is at most `w/2`.  The three
branches are the nearest-point cases (before `(x0,y0)`, past `(x1,y1)`,
or the orthogonal projection); each comparison is the exact integer form
of `4·dist² ≤ w²`. -/
def onStroke (x0 y0 x1 y1 : Int) (w : Nat) (px py : Nat) : Bool :=
  let dx := x1 - x0
  let dy := y1 - y0
  let ux := (px : Int) - x0
  let uy := (py : Int) - y0
  let vx := (px : Int) - x1
  let vy := (py : Int) - y1
  let dd := dx * dx + dy * dy
  let dot := ux * dx + uy * dy
  if dot ≤ 0 then decide (4 * (ux * ux + uy * uy) ≤ (w : Int) ^ 2)
  else if dd ≤ dot then decide (4 * (vx * vx + vy * vy) ≤ (w : Int) ^ 2)
  else decide (4 * ((ux * ux + uy * uy) * dd - dot * dot) ≤ (w : Int) ^ 2 * dd)

/-- Embeds `self.draw.line([x0, y0, x1, y1], fill='white', width=w)`:
paint white (255) every pixel of the stroke corridor.  PIL's rasterizer
differs from the ideal corridor only in end-cap/boundary pixels; no claim
below depends on the exact painted set, only on whether painting happens
and that the segment's own pixels are painted. -/
def drawSeg (img : Img) (x0 y0 x1 y1 : Int) (w : Nat) : Img :=
  img.enum.map fun p => p.2.enum.map fun q =>
    if onStroke x0 y0 x1 y1 w q.1 p.1 then 255 else q.2

/-- Embeds `DigitCaptureApp.start_draw` (lines 69–72). -/
def start_draw (s : AppState) (ex ey : Int) : AppState :=
  { s with old_x := some ex, old_y := some ey }

/-- Embeds `DigitCaptureApp.stop_draw` (lines 93–96). -/
def stop_draw (s : AppState) : AppState :=
  { s with old_x := none, old_y := none }

/-- Embeds `DigitCaptureApp.draw_line` (lines 74–91): if
`self.old_x and self.old_y` is truthy, draw the stroke on the raster and
move the origin to the event position; otherwise do nothing.  (The
parallel `canvas.create_line` call touches only the display surface.) -/
def draw_line (s : AppState) (ex ey : Int) : AppState :=
  if truthy s.old_x && truthy s.old_y then
    { s with
      image := drawSeg s.image (s.old_x.getD 0) (s.old_y.getD 0) ex ey line_width,
      old_x := some ex, old_y := some ey }
  else s

/-- Invocation of `process_drawing` on the application state: the method
reads `self.image` and assigns no attribute, so the state passes through
unchanged alongside the returned matrix and console lines. -/
def processAt (s : AppState) : AppState × (Option (List (List ℚ)) × List String) :=
  (s, process_drawing s.image)

/-- Embeds `DigitCaptureApp.reset_canvas` (lines 154–188): process the
current drawing, replace `self.image` with a fresh black image, restart
the timer at `now`, and print the reset banner.  The method does not
touch `self.old_x` / `self.old_y`. -/
def reset_canvas (s : AppState) (now : ℚ) :
    AppState × (Option (List (List ℚ)) × List String) :=
  let r := process_drawing s.image
  ({ s with
      image := imageNew s.screen_width s.screen_height,
      start_time := now },
   (r.1, r.2 ++ ["", sepLine, "Canvas reset - Ready for new input", sepLine]))

/-- Python `int()` on a rational: truncation toward zero. -/
def pyInt (q : ℚ) : Int := if q < 0 then -⌊-q⌋ else ⌊q⌋

/-- Embeds `DigitCaptureApp.update_timer` (lines 190–202): compute
`remaining = max(0, 30 - int(elapsed))`, display it, and reset the canvas
when `elapsed >= 30`.  Returns the new state, the displayed countdown,
and the capture result of a reset (if one fired). -/
def update_timer (s : AppState) (now : ℚ) :
    AppState × Int × (Option (List (List ℚ)) × List String) :=
  let elapsed := now - s.start_time
  let remaining : Int := max 0 (30 - pyInt elapsed)
  if 30 ≤ elapsed then
    ((reset_canvas s now).1, remaining, (reset_canvas s now).2)
  else (s, remaining, (none, []))

/-- Modelled from the claim C9 wording, for comparison with the code's
actual output: the capture output would consist of one separator line,
the header, 28 value rows, a blank line, the visual-representation label,
and 28 glyph rows — nothing else. -/
def claimedCaptureShape (ls : List String) : Prop :=
  ∃ valRows glyphRows : List String,
    valRows.length = 28 ∧ glyphRows.length = 28 ∧
      ls = sepLine :: headerLine ::
        (valRows ++ [""] ++ ["Visual representation:"] ++ glyphRows)

/-- A 1×1 raster holding a single full-intensity pixel. -/
def img0 : Img := [[255]]

/-- The matrix the normalizer produces from `img0`: all entries `255/255`,
written in the same normalized form the pipeline emits. -/
def m0 : List (List ℚ) := List.replicate 28 (List.replicate 28 (((255 : Nat) : ℚ) / 255))

/-- A 2×2 square crop of side 2 (realizable as the square-padded crop of a
raster whose bounding box is 2×2). -/
def sq2 : Img := [[255, 255], [255, 255]]

/-- A 5×5 square crop of side 5. -/
def sq5 : Img := List.replicate 5 (List.replicate 5 200)

/-- A state with an active stroke origin at `(5, 5)` on a blank 10×10
screen, as after a pointer-down at `(5, 5)` with the button still held. -/
def s5 : AppState :=
  { screen_width := 10, screen_height := 10, image := imageNew 10 10,
    old_x := some 5, old_y := some 5, start_time := 0 }

/-- An idle state: nothing drawn, no active origin. -/
def sIdle : AppState :=
  { screen_width := 4, screen_height := 4, image := imageNew 4 4,
    old_x := none, old_y := none, start_time := 0 }

/-- A state right after a pointer-down at `(0, 5)` — on the left edge of
the screen — so a stroke origin exists but `old_x` is the integer 0. -/
def s6 : AppState :=
  { screen_width := 8, screen_height := 8, image := imageNew 8 8,
    old_x := some 0, old_y := some 5, start_time := 0 }

/-! ### Helper lemmas -/

theorem getD_map_range {α : Type} (g : Nat → α) (n i : Nat) (d : α) (h : i < n) :
    ((List.range n).map g).getD i d = g i := by
  rw [List.getD_eq_getElem?_getD, List.getElem?_map, List.getElem?_range h]
  rfl

theorem getPix_mkGrid (f : Nat → Nat → Nat) (W H x y : Nat) (hx : x < W) (hy : y < H) :
    getPix (mkGrid W H f) x y = f x y := by
  unfold getPix mkGrid
  rw [getD_map_range _ _ _ _ hy, getD_map_range _ _ _ _ hx]

theorem length_mkGrid (W H : Nat) (f : Nat → Nat → Nat) : (mkGrid W H f).length = H := by
  simp [mkGrid]

theorem row_length_mkGrid (W H : Nat) (f : Nat → Nat → Nat) :
    ∀ row ∈ mkGrid W H f, row.length = W := by
  intro row hr
  simp only [mkGrid, List.mem_map] at hr
  obtain ⟨i, _, rfl⟩ := hr
  simp

theorem getPix_pasteIntoNew (W H : Nat) (src : Img) (ox oy x y : Nat)
    (hx : x < W) (hy : y < H) :
    getPix (pasteIntoNew W H src ox oy) x y =
      if ox ≤ x ∧ x < ox + imgWidth src ∧ oy ≤ y ∧ y < oy + src.length then
        getPix src (x - ox) (y - oy)
      else 0 :=
  getPix_mkGrid _ _ _ _ _ hx hy

theorem clip8_le (z : Int) : clip8 z ≤ 255 := by
  unfold clip8
  split
  · omega
  · split <;> omega

theorem samplePoint_le (outSize : Nat) (vals : List Nat) (i : Nat) :
    samplePoint outSize vals i ≤ 255 :=
  clip8_le _

theorem resizeTo_length (ow oh : Nat) (img : Img) : (resizeTo ow oh img).length = oh := by
  simp [resizeTo]

theorem resizeTo_rows (ow oh : Nat) (img : Img) :
    ∀ row ∈ resizeTo ow oh img, row.length = ow ∧ ∀ v ∈ row, v ≤ 255 := by
  intro row hr
  simp only [resizeTo, List.mem_map, List.mem_range] at hr
  obtain ⟨i, _, rfl⟩ := hr
  refine ⟨by simp, ?_⟩
  intro v hv
  simp only [List.mem_map, List.mem_range] at hv
  obtain ⟨x, _, rfl⟩ := hv
  exact samplePoint_le _ _ _

theorem mnist_shape (img : Img) (bb : Nat × Nat × Nat × Nat) :
    (mnist_array_of img bb).length = 28 ∧
      ∀ row ∈ mnist_array_of img bb,
        row.length = 28 ∧ ∀ q ∈ row, 0 ≤ q ∧ q ≤ 1 := by
  obtain ⟨l, u, r, lo⟩ := bb
  unfold mnist_array_of
  refine ⟨by simp [resizeTo_length], ?_⟩
  intro row hr
  simp only [List.mem_map] at hr
  obtain ⟨row0, hr0, rfl⟩ := hr
  obtain ⟨hlen, hval⟩ := resizeTo_rows _ _ _ row0 hr0
  refine ⟨by simp [hlen], ?_⟩
  intro q hq
  simp only [List.mem_map] at hq
  obtain ⟨v, hv, rfl⟩ := hq
  constructor
  · positivity
  · rw [div_le_one (by norm_num)]
    exact_mod_cast le_trans (hval v hv) (by norm_num)

theorem nzRow_eq_nil_iff (row : List Nat) (y x : Nat) :
    nzRow row y x = [] ↔ ∀ v ∈ row, v = 0 := by
  induction row generalizing x with
  | nil => simp [nzRow]
  | cons v vs ih =>
      by_cases h : v = 0
      · simp [nzRow, h, ih]
      · simp [nzRow, h]

theorem nzAux_eq_nil_iff (img : Img) (y : Nat) :
    nzAux img y = [] ↔ ∀ row ∈ img, ∀ v ∈ row, v = 0 := by
  induction img generalizing y with
  | nil => simp [nzAux]
  | cons row rest ih =>
      simp [nzAux, nzRow_eq_nil_iff, ih]

theorem getbbox_eq_none_iff (img : Img) :
    getbbox img = none ↔ ∀ row ∈ img, ∀ v ∈ row, v = 0 := by
  rw [← nzAux_eq_nil_iff img 0]
  unfold getbbox nonzeroCoords
  cases h : nzAux img 0 <;> simp [h]

theorem process_fst_some (img : Img) (m : List (List ℚ))
    (h : (process_drawing img).1 = some m) :
    ∃ bb, getbbox img = some bb ∧ m = mnist_array_of img bb := by
  cases hb : getbbox img with
  | none => simp [process_drawing, hb] at h
  | some bb =>
      simp only [process_drawing, hb, Option.some.injEq] at h
      exact ⟨bb, rfl, h.symm⟩

theorem process_snd_some (img : Img) (bb : Nat × Nat × Nat × Nat)
    (hb : getbbox img = some bb) :
    (process_drawing img).2 = captureLines (mnist_array_of img bb) := by
  simp [process_drawing, hb]

/-! ### Claim theorems -/

/-- C1: for every raster whose bounding box of non-background pixels is
non-empty (equivalently, whenever the normalizer returns a matrix), the
matrix has exactly 28 rows and 28 columns and every entry lies in
`[0, 1]` (each resampled 0–255 intensity divided by 255). -/
theorem normalizer_output_shape_and_range (img : Img) (m : List (List ℚ))
    (h : (process_drawing img).1 = some m) :
    m.length = 28 ∧ ∀ row ∈ m, row.length = 28 ∧ ∀ q ∈ row, 0 ≤ q ∧ q ≤ 1 := by
  obtain ⟨bb, _, rfl⟩ := process_fst_some img m h
  exact mnist_shape img bb

/-- Witness for C1: the 1×1 full-intensity raster produces the all-ones
28×28 matrix, of the stated shape. -/
theorem normalizer_output_shape_and_range_witness :
    (process_drawing img0).1 = some m0 ∧ m0.length = 28 :=
  ⟨rfl, (normalizer_output_shape_and_range img0 m0 rfl).1⟩

/-- C4: a raster with no non-background pixel makes the normalizer signal
empty capture (the explanatory message, no matrix); a raster with at
least one non-background pixel makes it return a matrix. -/
theorem empty_capture_dichotomy (img : Img) :
    ((∀ row ∈ img, ∀ v ∈ row, v = 0) →
        process_drawing img = (none, ["", "No drawing detected!"])) ∧
      ((¬ ∀ row ∈ img, ∀ v ∈ row, v = 0) → ∃ m, (process_drawing img).1 = some m) := by
  constructor
  · intro h
    rw [process_drawing, (getbbox_eq_none_iff img).mpr h]
  · intro h
    cases hb : getbbox img with
    | none => exact absurd ((getbbox_eq_none_iff img).mp hb) h
    | some bb => exact ⟨mnist_array_of img bb, by simp [process_drawing, hb]⟩

/-- Witness for C4: the all-background raster `[[0]]` yields the message
and no matrix; the raster `[[0, 255]]` yields a matrix. -/
theorem empty_capture_dichotomy_witness :
    process_drawing [[0]] = (none, ["", "No drawing detected!"]) ∧
      ∃ m, (process_drawing [[0, 255]]).1 = some m :=
  ⟨(empty_capture_dichotomy [[0]]).1 (by decide),
   (empty_capture_dichotomy [[0, 255]]).2 (by decide)⟩

/-- C7: the normalizer is deterministic and idempotent at the state level:
invoking `process_drawing` twice in sequence on the unmutated state gives
bit-identical results (matrix, empty-capture signal and console lines) —
the method is a pure function of the raster and writes no attribute. -/
theorem process_drawing_deterministic (s : AppState) :
    (processAt ((processAt s).1)).2.1 = (processAt s).2.1 ∧
      (processAt ((processAt s).1)).2 = (processAt s).2 :=
  ⟨rfl, rfl⟩

/-- C10: the normalizer never mutates its input: the application state —
in particular the raster canvas, pixel for pixel — is unchanged by an
invocation of `process_drawing` (it only reads `self.image`; crop, the
pastes into freshly created images, resize and the array conversion all
build new objects). -/
theorem process_drawing_preserves_raster (s : AppState) :
    (processAt s).1 = s ∧
      ∀ x y, getPix (processAt s).1.image x y = getPix s.image x y :=
  ⟨rfl, fun _ _ => rfl⟩

/-- C3: the square-padding step produces a square image of side
`max w h` from a `w×h` crop, with the crop pasted at offset
`((max w h − w) / 2, (max w h − h) / 2)` — centered along the shorter
axis up to the one-pixel floor-division imbalance — and background fill
elsewhere. -/
theorem square_pad_centers_crop (cropped : Img) (w h : Nat)
    (hw : imgWidth cropped = w) (hl : cropped.length = h) :
    (squarePad cropped).length = max w h ∧
      (∀ row ∈ squarePad cropped, row.length = max w h) ∧
      (∀ x y, x < w → y < h →
        getPix (squarePad cropped) ((max w h - w) / 2 + x) ((max w h - h) / 2 + y) =
          getPix cropped x y) ∧
      (∀ x y, x < max w h → y < max w h →
        (x < (max w h - w) / 2 ∨ (max w h - w) / 2 + w ≤ x ∨
          y < (max w h - h) / 2 ∨ (max w h - h) / 2 + h ≤ y) →
        getPix (squarePad cropped) x y = 0) ∧
      ((max w h - w) - (max w h - w) / 2 ≤ (max w h - w) / 2 + 1 ∧
        (max w h - w) / 2 ≤ (max w h - w) - (max w h - w) / 2) ∧
      ((max w h - h) - (max w h - h) / 2 ≤ (max w h - h) / 2 + 1 ∧
        (max w h - h) / 2 ≤ (max w h - h) - (max w h - h) / 2) := by
  subst hw hl
  refine ⟨length_mkGrid _ _ _, row_length_mkGrid _ _ _, ?_, ?_, by omega, by omega⟩
  · intro x y hx hy
    rw [show squarePad cropped =
          pasteIntoNew (max (imgWidth cropped) cropped.length)
            (max (imgWidth cropped) cropped.length) cropped
            ((max (imgWidth cropped) cropped.length - imgWidth cropped) / 2)
            ((max (imgWidth cropped) cropped.length - cropped.length) / 2) from rfl,
        getPix_pasteIntoNew _ _ _ _ _ _ _ (by omega) (by omega), if_pos (by omega)]
    congr 1 <;> omega
  · intro x y hx hy hout
    rw [show squarePad cropped =
          pasteIntoNew (max (imgWidth cropped) cropped.length)
            (max (imgWidth cropped) cropped.length) cropped
            ((max (imgWidth cropped) cropped.length - imgWidth cropped) / 2)
            ((max (imgWidth cropped) cropped.length - cropped.length) / 2) from rfl,
        getPix_pasteIntoNew _ _ _ _ _ _ _ hx hy, if_neg (by omega)]

/-- Witness for C3: on the 1×2 crop `[[7], [9]]` the square pad has side 2,
keeps the content at the centered offset, and backfills the padded column. -/
theorem square_pad_centers_crop_witness :
    (squarePad [[7], [9]]).length = max 1 2 ∧
      getPix (squarePad [[7], [9]]) ((max 1 2 - 1) / 2 + 0) ((max 1 2 - 2) / 2 + 0) =
        getPix [[7], [9]] 0 0 ∧
      getPix (squarePad [[7], [9]]) 1 0 = 0 := by
  have H := square_pad_centers_crop [[7], [9]] 1 2 rfl rfl
  exact ⟨H.1, H.2.2.1 0 0 (by norm_num) (by norm_num),
    H.2.2.2.1 1 0 (by norm_num) (by norm_num) (by omega)⟩

/-- C2 (amended): the margin added on each of the four sides is
`⌊max_dim / 5⌋` — the value of `int(max_dim * 0.2)` — so the padded side
is `max_dim + 2·⌊max_dim / 5⌋`, which equals `1.4 × max_dim` exactly when
`max_dim` is divisible by 5; the square content sits centered at offset
`⌊max_dim / 5⌋` with background-filled margins. -/
theorem margin_pad_floor_margin (sq : Img) (m : Nat)
    (hw : imgWidth sq = m) (hl : sq.length = m) :
    padAmount m = m / 5 ∧
      (marginPad sq m).length = m + 2 * (m / 5) ∧
      (∀ row ∈ marginPad sq m, row.length = m + 2 * (m / 5)) ∧
      (∀ x y, x < m → y < m →
        getPix (marginPad sq m) (m / 5 + x) (m / 5 + y) = getPix sq x y) ∧
      (∀ x y, x < m + 2 * (m / 5) → y < m + 2 * (m / 5) →
        (x < m / 5 ∨ m / 5 + m ≤ x ∨ y < m / 5 ∨ m / 5 + m ≤ y) →
        getPix (marginPad sq m) x y = 0) ∧
      (5 ∣ m → ((m + 2 * (m / 5) : Nat) : ℚ) = (7 / 5) * (m : ℚ)) := by
  refine ⟨rfl, length_mkGrid _ _ _, row_length_mkGrid _ _ _, ?_, ?_, ?_⟩
  · intro x y hx hy
    rw [show marginPad sq m =
          pasteIntoNew (m + 2 * (m / 5)) (m + 2 * (m / 5)) sq (m / 5) (m / 5) from rfl,
        getPix_pasteIntoNew _ _ _ _ _ _ _ (by omega) (by omega),
        if_pos (by rw [hw, hl]; omega)]
    congr 1 <;> omega
  · intro x y hx hy hout
    rw [show marginPad sq m =
          pasteIntoNew (m + 2 * (m / 5)) (m + 2 * (m / 5)) sq (m / 5) (m / 5) from rfl,
        getPix_pasteIntoNew _ _ _ _ _ _ _ hx hy, if_neg (by rw [hw, hl]; omega)]
  · intro hdvd
    obtain ⟨k, rfl⟩ := hdvd
    rw [Nat.mul_div_cancel_left k (by norm_num)]
    push_cast
    ring

/-- Witness for C2: for the 5×5 square `sq5` the margin is 1 on each side,
the padded side is 7 = 1.4 × 5, content is at offset 1, margins are 0. -/
theorem margin_pad_floor_margin_witness :
    padAmount 5 = 5 / 5 ∧
      (marginPad sq5 5).length = 5 + 2 * (5 / 5) ∧
      getPix (marginPad sq5 5) (5 / 5 + 0) (5 / 5 + 0) = getPix sq5 0 0 ∧
      getPix (marginPad sq5 5) 0 0 = 0 ∧
      ((5 + 2 * (5 / 5) : Nat) : ℚ) = (7 / 5) * (5 : ℚ) := by
  have H := margin_pad_floor_margin sq5 5 rfl rfl
  exact ⟨H.1, H.2.1, H.2.2.2.1 0 0 (by norm_num) (by norm_num),
    H.2.2.2.2.1 0 0 (by norm_num) (by norm_num) (by omega),
    H.2.2.2.2.2 (by norm_num)⟩

/-- Counterexample for C2 as stated: for a square crop of side 2 the code
adds no margin at all (`int(2 * 0.2) = 0`), so the margin is not 20% of
the side and the pre-resize side is 2, not `1.4 × 2 = 2.8`. -/
theorem margin_twenty_percent_cex :
    padAmount 2 = 0 ∧
      ((padAmount 2 : Nat) : ℚ) ≠ (1 / 5) * (2 : ℚ) ∧
      (marginPad sq2 2).length = 2 ∧
      (((marginPad sq2 2).length : Nat) : ℚ) ≠ (7 / 5) * (2 : ℚ) := by
  have h2 : (marginPad sq2 2).length = 2 := rfl
  have h0 : padAmount 2 = 0 := rfl
  refine ⟨rfl, ?_, h2, ?_⟩
  · rw [h0]; norm_num
  · rw [h2]; norm_num

/-- C5 (amended): a timer-driven reset restores the raster canvas to the
all-background state and resets the start time, but it does **not** clear
the stroke recorder origin (`old_x`/`old_y` are untouched); a pointer-move
immediately after a reset produces no stroke provided no origin was
active at reset time. -/
theorem reset_restores_canvas_keeps_origin (s : AppState) (now : ℚ) (ex ey : Int)
    (h : s.old_x = none) :
    (reset_canvas s now).1.image = imageNew s.screen_width s.screen_height ∧
      (reset_canvas s now).1.old_x = s.old_x ∧
      (reset_canvas s now).1.old_y = s.old_y ∧
      draw_line (reset_canvas s now).1 ex ey = (reset_canvas s now).1 := by
  refine ⟨rfl, rfl, rfl, ?_⟩
  rw [draw_line, show (reset_canvas s now).1.old_x = s.old_x from rfl, h]
  rfl

/-- Witness for C5 (amended claim) at the idle state. -/
theorem reset_restores_canvas_keeps_origin_witness :
    (reset_canvas sIdle 5).1.image = imageNew sIdle.screen_width sIdle.screen_height ∧
      (reset_canvas sIdle 5).1.old_x = sIdle.old_x ∧
      (reset_canvas sIdle 5).1.old_y = sIdle.old_y ∧
      draw_line (reset_canvas sIdle 5).1 3 3 = (reset_canvas sIdle 5).1 :=
  reset_restores_canvas_keeps_origin sIdle 5 3 3 rfl

/-- Counterexample for C5 as stated: from a state whose origin `(5, 5)` is
active (button held) when the reset fires, the origin survives the reset,
and the very next pointer-move — without any new pointer-down — paints
the fresh canvas: pixel `(5, 5)` is background right after the reset and
white after the move. -/
theorem reset_does_not_clear_origin_cex :
    (reset_canvas s5 0).1.old_x = some 5 ∧
      (reset_canvas s5 0).1.old_y = some 5 ∧
      getPix ((reset_canvas s5 0).1.image) 5 5 = 0 ∧
      getPix ((draw_line (reset_canvas s5 0).1 7 7).image) 5 5 = 255 :=
  ⟨rfl, rfl, by decide, by decide⟩

/-- C6: evaluation at the failing input.  In state `s6` a stroke origin
exists (`old_x = some 0`, `old_y = some 5`, set by a pointer-down at the
screen's left edge), yet a pointer-move to `(10, 10)` leaves the whole
state unchanged — no segment is drawn and the origin is not updated —
because `if self.old_x and self.old_y:` treats the coordinate 0 as
falsy. -/
theorem draw_line_ignores_zero_coordinate_origin :
    s6.old_x = some 0 ∧ s6.old_y = some 5 ∧ draw_line s6 10 10 = s6 :=
  ⟨rfl, rfl, rfl⟩

/-- C8 (amended): on every timer tick the displayed countdown equals
`max 0 (30 − int(elapsed))` — the elapsed time truncated toward zero to
whole seconds — and in particular is never negative. -/
theorem countdown_display_truncated (s : AppState) (now : ℚ) :
    (update_timer s now).2.1 = max 0 (30 - pyInt (now - s.start_time)) ∧
      0 ≤ (update_timer s now).2.1 := by
  simp only [update_timer]
  constructor
  · split <;> rfl
  · split <;> exact le_max_left _ _

/-- Counterexample for C8 as stated: half a second after the start the
display shows 30, but `max(0, interval − elapsed)` is 29.5 — the code
truncates `elapsed` before subtracting. -/
theorem countdown_formula_cex :
    (update_timer sIdle (1 / 2)).2.1 = 30 ∧
      (((update_timer sIdle (1 / 2)).2.1 : Int) : ℚ) ≠ max 0 (30 - (1 / 2 : ℚ)) := by
  have hst : sIdle.start_time = 0 := rfl
  have hp : pyInt (1 / 2 - sIdle.start_time) = 0 := by
    rw [hst, pyInt, if_neg (by norm_num)]
    norm_num [Int.floor_eq_zero_iff, Set.mem_Ico]
  have hr : (update_timer sIdle (1 / 2)).2.1 = 30 := by
    simp only [update_timer]
    rw [if_neg (by rw [hst]; norm_num), hp]
    decide
  refine ⟨hr, ?_⟩
  rw [hr, max_eq_right (by norm_num : (0 : ℚ) ≤ 30 - 1 / 2)]
  norm_num

/-- C9 (amended): on every successful capture the console output is the
leading blank line, a 50-character separator, the header, a **second**
separator, the 28 value rows (each the space-join of the 28 entries
formatted to two decimals), a blank line, the `Visual representation:`
label, and the 28 glyph rows of 28 characters each, where an entry's
glyph is `█` if it exceeds 0.5, `▒` if it exceeds 0.1, and a space
otherwise — 62 lines in total. -/
theorem capture_output_structure (img : Img) (m : List (List ℚ))
    (h : (process_drawing img).1 = some m) :
    (process_drawing img).2 =
      ["", sepLine, headerLine, sepLine] ++ m.map matrixLine ++
        ["", "Visual representation:"] ++ m.map visualLine ∧
      sepLine.length = 50 ∧
      (process_drawing img).2.length = 62 ∧
      m.length = 28 ∧
      (∀ row ∈ m, (row.map fmt2).length = 28 ∧
        matrixLine row = String.intercalate " " (row.map fmt2) ∧
        (visualLine row).length = 28) ∧
      (∀ q : ℚ, glyphChar q =
        if (1 : ℚ) / 2 < q then '█' else if (1 : ℚ) / 10 < q then '▒' else ' ') := by
  obtain ⟨bb, hb, rfl⟩ := process_fst_some img m h
  obtain ⟨hm, hrows⟩ := mnist_shape img bb
  have hsnd : (process_drawing img).2 = captureLines (mnist_array_of img bb) :=
    process_snd_some img bb hb
  refine ⟨hsnd, rfl, ?_, hm, ?_, fun _ => rfl⟩
  · rw [hsnd]
    simp [captureLines, hm]
  · intro row hr
    obtain ⟨hrl, -⟩ := hrows row hr
    have hv : (visualLine row).length = (row.map glyphChar).length := rfl
    exact ⟨by simp [hrl], rfl, by simp [hv, hrl]⟩

/-- Witness for C9 (amended claim) on the 1×1 full-intensity raster. -/
theorem capture_output_structure_witness :
    (process_drawing img0).2 =
      ["", sepLine, headerLine, sepLine] ++ m0.map matrixLine ++
        ["", "Visual representation:"] ++ m0.map visualLine ∧
      sepLine.length = 50 ∧ (process_drawing img0).2.length = 62 := by
  have H := capture_output_structure img0 m0 rfl
  exact ⟨H.1, H.2.1, H.2.2.1⟩

/-- Counterexample for C9 as stated: the capture output of a concrete
raster does not consist of just separator, header, 28 value rows, blank,
label and 28 glyph rows — the code also prints a leading blank line and a
second separator after the header (62 lines, not 60). -/
theorem capture_output_claimed_shape_cex :
    ¬ claimedCaptureShape ((process_drawing img0).2) := by
  intro hcl
  obtain ⟨vr, gr, h1, h2, h3⟩ := hcl
  have hlen : ((process_drawing img0).2).length = 62 := rfl
  rw [h3] at hlen
  simp [h1, h2] at hlen

end DigitCapture
